import Mathlib

/-!
Verification of the Lynxe timeline tools (trace normalization, incremental
monitoring, error classification and report truncation).

The Python sources `advanced_timeline_visualizer.py` and `timeline_monitor.py`
are embedded shallowly: dictionaries parsed from JSON become either typed
records (for well-typed snapshots) or a raw `JValue` tree (when the dynamic,
possibly-raising behaviour matters); Python exceptions become `Except`;
`datetime` values become the six-field `DT` record actually constructed by the
source; Python's stable `list.sort` becomes `List.mergeSort`.
-/

open List

/-! ## String helpers (Python string primitives used by the source) -/

/-- Python `pat in s` on strings: substring containment on the character list. -/
def hasSubStr (s pat : String) : Bool := decide (pat.data <:+: s.data)

/-- Characters of `s.split('\n')[0]`: everything before the first newline. -/
def firstLineChars (s : String) : List Char := s.data.takeWhile (fun c => c ≠ '\n')

/-- Python `s.split(":", 1)`: cut at the first colon; `none` when no colon occurs. -/
def splitFirstColon : List Char → Option (List Char × List Char)
  | [] => none
  | c :: cs =>
    if c = ':' then some ([], cs)
    else match splitFirstColon cs with
      | some (pre, post) => some (c :: pre, post)
      | none => none

/-- Python `s[:n]` on strings (slicing by code points). -/
def strTake (s : String) (n : Nat) : String := String.mk (s.data.take n)

/-- Python `s.lower()`, per code point. -/
def pyLower (s : String) : String := String.mk (s.data.map Char.toLower)

/-- Python `s.strip()`: whitespace dropped from both ends. -/
def pyStrip (s : String) : String :=
  String.mk ((s.data.dropWhile Char.isWhitespace).reverse.dropWhile Char.isWhitespace).reverse

/-- Python `s.replace("Z", "+00:00")` (the pattern is a single code point). -/
def replaceZ (s : String) : String :=
  String.mk (s.data.flatMap (fun c => if c = 'Z' then "+00:00".data else [c]))

/-! ## Instants

The source only ever builds `datetime` values through `datetime(*lst[:6])` or
`datetime.fromisoformat`, and compares them; `DT` keeps the six constructed
fields, compared lexicographically exactly as Python compares `datetime`s. -/

/-- A `datetime.datetime` as the source constructs it (microseconds dropped,
    matching `datetime(*time_value[:6])`). -/
structure DT where
  year : Nat
  month : Nat
  day : Nat
  hour : Nat
  minute : Nat
  second : Nat
deriving DecidableEq, Repr

def DT.fields (d : DT) : List Nat := [d.year, d.month, d.day, d.hour, d.minute, d.second]

/-- Boolean lexicographic order on lists of naturals: Python's tuple (and
    hence `datetime`) comparison. -/
def lexLE : List Nat → List Nat → Bool
  | [], _ => true
  | _ :: _, [] => false
  | a :: as, b :: bs => if a < b then true else if b < a then false else lexLE as bs

/-- `datetime.min`. -/
def dtMin : DT := ⟨1, 1, 1, 0, 0, 0⟩

/-- The sort key of `events.sort(key=lambda e: e.timestamp or datetime.min)`. -/
def tsFields : Option DT → List Nat
  | none => dtMin.fields
  | some d => d.fields

/-! ## Raw JSON values (Python's parsed-JSON universe) -/

inductive JValue : Type where
  | jnull : JValue
  | jbool : Bool → JValue
  | jint : Int → JValue
  | jstr : String → JValue
  | jlist : List JValue → JValue
  | jobj : List (String × JValue) → JValue

/-! ## Data model (typed view of a well-formed snapshot) -/

structure ToolCallRecord where
  toolName : String
  toolExecuteStatus : String
  result : String
deriving DecidableEq, Repr

structure TurnRecord where
  thinkInput : String
  thinkOutput : String
  actToolInfoList : List ToolCallRecord
deriving DecidableEq, Repr

structure StepRecord where
  agentRequest : String
  startTime : Option DT
  endTime : Option DT
  status : String
  thinkActSteps : List TurnRecord
deriving DecidableEq, Repr

structure ExecutionSnapshot where
  completed : Bool
  agentExecutionSequence : List StepRecord
deriving DecidableEq, Repr

/-- `TimelineEvent` of `advanced_timeline_visualizer.py`; `details` keeps the
    raw values Python stores in the detail dictionary. -/
structure TimelineEvent where
  event_type : String
  timestamp : Option DT
  description : String
  status : String
  details : List (String × JValue)

/-! ## Trace normalizer (`AdvancedTimelineVisualizer.parse_execution_data`) -/

/-- `tool_result[:200] if tool_result else ""`. -/
def truncResult (s : String) : String := if s = "" then "" else strTake s 200

/-- `AdvancedTimelineVisualizer._extract_step_name`: text after the first `:`
    of the first line, stripped; default `"步骤 <n>"`. -/
def extract_step_name (agent_request : String) (step_idx : Nat) : String :=
  match splitFirstColon (firstLineChars agent_request) with
  | some (_, post) => pyStrip (String.mk post)
  | none => "步骤 " ++ toString step_idx

/-- Status of a tool-call event (lines 231-239 of the source): recovery for
    repair/fix tools, error for error-named tools, else by execution status. -/
def toolEventStatus (tool_name tool_status : String) : String :=
  let lower := pyLower tool_name
  let is_recovery := hasSubStr lower "repair" || hasSubStr lower "fix"
  let is_error_tool := hasSubStr lower "error"
  let base := if tool_status = "success" then "success" else "error"
  if is_recovery then "recovery" else if is_error_tool then "error" else base

def toolEvent (tool : ToolCallRecord) (start_time : Option DT) : TimelineEvent :=
  { event_type := "tool_call", timestamp := start_time,
    description := "工具调用: " ++ tool.toolName,
    status := toolEventStatus tool.toolName tool.toolExecuteStatus,
    details := [("tool_name", .jstr tool.toolName),
                ("status", .jstr tool.toolExecuteStatus),
                ("result", .jstr (truncResult tool.result))] }

def thinkEvent (ta : TurnRecord) (turn_n : Nat) (start_time : Option DT) : TimelineEvent :=
  { event_type := "think", timestamp := start_time,
    description := "思考过程 (Turn " ++ toString turn_n ++ ")", status := "info",
    details := [("input", .jstr ta.thinkInput), ("output", .jstr ta.thinkOutput)] }

def turnEvents (ta : TurnRecord) (turn_n : Nat) (start_time : Option DT) : List TimelineEvent :=
  (if ta.thinkInput ≠ "" ∨ ta.thinkOutput ≠ "" then [thinkEvent ta turn_n start_time] else []) ++
  ta.actToolInfoList.map (fun tool => toolEvent tool start_time)

def stepStartEvent (step : StepRecord) (n : Nat) (t : DT) : TimelineEvent :=
  { event_type := "step_start", timestamp := some t,
    description := "步骤 " ++ toString n ++ ": " ++ extract_step_name step.agentRequest n,
    status := "running", details := [] }

def stepEndEvent (step : StepRecord) (n : Nat) (t : DT) : TimelineEvent :=
  { event_type := "step_end", timestamp := some t,
    description := "步骤 " ++ toString n ++ " 完成",
    status := if step.status = "FINISHED" then "success" else "error", details := [] }

/-- The think and tool-call events of one step (emitted whether or not the
    step carries a start instant; they inherit `step.startTime`). -/
def stepMidEvents (step : StepRecord) : List TimelineEvent :=
  step.thinkActSteps.enum.flatMap (fun p => turnEvents p.2 (p.1 + 1) step.startTime)

/-- All events one step contributes, in emission order. -/
def stepEvents (step : StepRecord) (n : Nat) : List TimelineEvent :=
  (match step.startTime with | some t => [stepStartEvent step n t] | none => []) ++
  stepMidEvents step ++
  (match step.endTime with | some t => [stepEndEvent step n t] | none => [])

/-- `events.sort(key=lambda e: e.timestamp or datetime.min)`; Python's sort is
    stable, so `List.mergeSort` with the key order models it. -/
def eventLE (a b : TimelineEvent) : Bool := lexLE (tsFields a.timestamp) (tsFields b.timestamp)

/-- `AdvancedTimelineVisualizer.parse_execution_data` on a well-typed snapshot. -/
def parse_execution_data (ed : ExecutionSnapshot) : List TimelineEvent :=
  (ed.agentExecutionSequence.enum.flatMap (fun p => stepEvents p.2 (p.1 + 1))).mergeSort eventLE

/-! ## Error classifier (`ErrorAnalyzer` of `timeline_monitor.py`) -/

structure ErrorEntry where
  step : Nat
  tool : String
  error_type : String
  message : String
  suggested_fix : String
deriving DecidableEq, Repr

/-- `ErrorAnalyzer._classify_error`. -/
def classify_error (error_message : String) : String :=
  let m := pyLower error_message
  if hasSubStr m "file not found" || hasSubStr m "no such file" then "file_not_found"
  else if hasSubStr m "validation" || hasSubStr m "invalid" then "validation_error"
  else if hasSubStr m "timeout" then "timeout"
  else if hasSubStr m "permission" then "permission_error"
  else "unknown_error"

/-- `ErrorAnalyzer._suggest_fix`. -/
def suggest_fix (error_type : String) : String :=
  if error_type = "file_not_found" then "检查文件路径是否正确，或确保文件存在"
  else if error_type = "validation_error" then "检查输入数据格式是否符合要求"
  else if error_type = "timeout" then "增加超时时间或检查网络连接"
  else if error_type = "permission_error" then "检查文件权限设置"
  else "请检查错误详情"

/-- `ErrorAnalyzer._analyze_error`. -/
def analyze_error (tc : ToolCallRecord) (step : Nat) : ErrorEntry :=
  let error_type := classify_error tc.result
  { step := step, tool := tc.toolName, error_type := error_type,
    message := truncResult tc.result, suggested_fix := suggest_fix error_type }

/-- The qualification test of `ErrorAnalyzer.analyze` (line 725):
    `exec_status != "success" or "error" in tool_name.lower()`. -/
def qualifiesForAnalysis (tc : ToolCallRecord) : Bool :=
  !(tc.toolExecuteStatus == "success") || hasSubStr (pyLower tc.toolName) "error"

/-- `ErrorAnalyzer.analyze`: the triple loop appending one entry per
    qualifying tool call into the `errors` accumulator. -/
def analyze (ed : ExecutionSnapshot) : List ErrorEntry :=
  ed.agentExecutionSequence.enum.foldl (fun acc p =>
    p.2.thinkActSteps.foldl (fun acc ta =>
      ta.actToolInfoList.foldl (fun acc tc =>
        if qualifiesForAnalysis tc then acc ++ [analyze_error tc (p.1 + 1)] else acc)
        acc)
      acc)
    []

/-- Spec-side view used to state C7: every tool call of the snapshot paired
    with its 1-based step index, in traversal order. -/
def allToolCalls (ed : ExecutionSnapshot) : List (Nat × ToolCallRecord) :=
  ed.agentExecutionSequence.enum.flatMap (fun p =>
    p.2.thinkActSteps.flatMap (fun ta =>
      ta.actToolInfoList.map (fun tc => (p.1 + 1, tc))))

/-! ## Incremental monitor models -/

/-- `⌊log₂ n⌋` by repeated halving with an explicit fuel bound (`n` halves to
    below 2 in at most `n` steps), so concrete values reduce in the kernel. -/
def log2fuel : Nat → Nat → Nat
  | 0, _ => 0
  | fuel + 1, n => if n ≥ 2 then log2fuel fuel (n / 2) + 1 else 0

def natLog2 (n : Nat) : Nat := log2fuel n n

/-- The binary exponent of the positive rational `a / b`: the unique `e` with
    `2 ^ e ≤ a / b < 2 ^ (e + 1)` (for `a, b > 0`). -/
def natRatLog2 (a b : Nat) : Int :=
  let la := natLog2 a
  let lb := natLog2 b
  if la ≥ lb then
    (if b * 2 ^ (la - lb) ≤ a then (la - lb : Int) else (la - lb : Int) - 1)
  else
    (if b ≤ a * 2 ^ (lb - la) then -((lb - la : Nat) : Int) else -((lb - la : Nat) : Int) - 1)

/-- Round `num / den` to the nearest integer, ties to even (the IEEE-754
    default rounding at mantissa level). -/
def roundHalfEven (num den : Nat) : Nat :=
  let q := num / den
  let r := num % den
  if 2 * r < den then q
  else if 2 * r > den then q + 1
  else if q % 2 = 0 then q else q + 1

/-- The IEEE-754 binary64 value nearest to the rational `a / b`, as mantissa
    `m` and exponent `e` with value `m * 2 ^ (e - 52)` and `m ∈ [2^52, 2^53]`
    (`(0, 0)` for zero). Subnormal underflow and infinite overflow, which the
    quotients in this program (step-count ratios in `(2⁻⁶⁴, 100]`) never
    reach, are not modelled. -/
def roundDouble (a b : Nat) : Nat × Int :=
  if a = 0 || b = 0 then (0, 0)
  else
    let e := natRatLog2 a b
    if e ≤ 52 then (roundHalfEven (a * 2 ^ (52 - e).toNat) b, e)
    else (roundHalfEven a (b * 2 ^ (e - 52).toNat), e)

/-- CPython's `int((n / total) * 100)` of line 247: `int / int` true division
    is the correctly rounded double of the exact quotient; multiplying by the
    exact double `100.0` rounds once more; `int()` truncates toward zero
    (equals floor, the value being non-negative). -/
def progressPercentFloat (n total : Nat) : Nat :=
  let p := roundDouble n total
  let q := if p.2 ≤ 52 then roundDouble (100 * p.1) (2 ^ (52 - p.2).toNat)
    else roundDouble (100 * p.1 * 2 ^ (p.2 - 52).toNat) 1
  if q.2 ≤ 52 then q.1 / 2 ^ (52 - q.2).toNat
  else q.1 * 2 ^ (q.2 - 52).toNat

/-- One progress computation of `TimelineMonitor`: the estimate update at
    lines 194-195 of `monitor` followed by `_get_progress_info`
    (lines 234-247). Returns the new `total_steps_estimate` and the reported
    percentage. -/
def pollProgress (estimate n : Nat) : Nat × Nat :=
  let e1 := if n > estimate then n else estimate
  let e2 := if e1 = 0 ∧ n > 0 then max n 3 else e1
  let total := max e2 n
  (e2, if total > 0 then min 100 (progressPercentFloat n total) else 0)

/-- Outcome of one backend fetch, as the HTTP layer can deliver it. -/
inductive FetchOutcome : Type where
  | ok : ExecutionSnapshot → FetchOutcome
  | notFound : FetchOutcome
  | transientError : FetchOutcome
deriving DecidableEq, Repr

/-- `LynxeClient.get_execution_details` of `timeline_monitor.py`
    (lines 112-120): HTTP 404 returns `None`; any `RequestException`
    (the transient temporarily-unreachable case) re-raises as
    `RuntimeError`. -/
def get_execution_details : FetchOutcome → Except String (Option ExecutionSnapshot)
  | .ok d => .ok (some d)
  | .notFound => .ok none
  | .transientError => .error "RuntimeError"

inductive MonitorResult : Type where
  | completed : ExecutionSnapshot → MonitorResult
  | failedNotFound : MonitorResult
  | raised : String → MonitorResult
  | stillPolling : Nat → MonitorResult
deriving DecidableEq, Repr

/-- `TimelineMonitor.monitor` (lines 180-227), driven by the script of
    successive backend fetch outcomes: `details is None` returns `None`
    (modelled `failedNotFound`); an uncaught `RuntimeError` from the fetch
    aborts the loop (`raised`); a completed snapshot returns it; otherwise
    the loop keeps polling (`stillPolling` when the script runs out). -/
def tmMonitor (last_step_count estimate : Nat) : List FetchOutcome → MonitorResult
  | [] => .stillPolling last_step_count
  | f :: rest =>
    match get_execution_details f with
    | .error e => .raised e
    | .ok none => .failedNotFound
    | .ok (some details) =>
      let n := details.agentExecutionSequence.length
      let e1 := if n > estimate then n else estimate
      let lsc := if n > last_step_count then n else last_step_count
      if details.completed then .completed details
      else tmMonitor lsc e1 rest

/-- The new-event emission of `RealtimeMonitor.monitor`
    (`advanced_timeline_visualizer.py` lines 540-544), driven by the
    normalized full event list of each successive poll; returns the
    concatenation of everything printed to the live feed. -/
def monitorEmit (last_event_count : Nat) : List (List TimelineEvent) → List TimelineEvent
  | [] => []
  | evs :: rest =>
    if evs.length > last_event_count then
      evs.drop last_event_count ++ monitorEmit evs.length rest
    else monitorEmit last_event_count rest

/-! ## Renderer truncations (`render_ascii_timeline`) -/

/-- `desc[:50] + "..." if len(desc) > 50 else desc` (line 313). -/
def truncDesc50 (s : String) : String := if s.length > 50 then strTake s 50 ++ "..." else s

/-- The 60-character detail-line truncation (lines 321, 324, 327). -/
def truncDetail60 (s : String) : String := if s.length > 60 then strTake s 60 ++ "..." else s

/-! ## Raw normalizer

The same `parse_execution_data`, but over an arbitrary JSON-like value, with
every operation that can raise in Python modelled in `Except`.  This is the
model on which totality claims are decided. -/

inductive PyErr : Type where
  | typeError : PyErr
  | valueError : PyErr
  | attributeError : PyErr
  | overflowError : PyErr
deriving DecidableEq, Repr

/-- Python truthiness of a parsed-JSON value. -/
def jfalsy : JValue → Bool
  | .jnull => true
  | .jbool b => !b
  | .jint n => n == 0
  | .jstr s => s == ""
  | .jlist xs => xs.isEmpty
  | .jobj fs => fs.isEmpty

/-- `v.get(key, dflt)`: only dictionaries have `.get`; anything else raises
    `AttributeError`. A present key returns its value even when it is null. -/
def jget (v : JValue) (key : String) (dflt : JValue) : Except PyErr JValue :=
  match v with
  | .jobj fs =>
    .ok (match fs.find? (fun kv => kv.1 == key) with
         | some kv => kv.2
         | none => dflt)
  | _ => .error .attributeError

/-- `for x in v`: lists iterate their items, strings their characters,
    dictionaries their keys; other values raise `TypeError`. -/
def jiter : JValue → Except PyErr (List JValue)
  | .jlist xs => .ok xs
  | .jstr s => .ok (s.data.map (fun c => .jstr (String.mk [c])))
  | .jobj fs => .ok (fs.map (fun kv => .jstr kv.1))
  | _ => .error .typeError

/-- Python `v == s` for a string literal `s`: never raises, only equal when
    `v` is that string. -/
def jeqStr (v : JValue) (s : String) : Bool :=
  match v with
  | .jstr t => t == s
  | _ => false

/-- `v.lower()`: only strings have it. -/
def jlowerStr : JValue → Except PyErr String
  | .jstr s => .ok (pyLower s)
  | _ => .error .attributeError

/-- `tool_result[:200] if tool_result else ""`: falsy values give `""`;
    strings and lists slice; other truthy values raise `TypeError`. -/
def jslice200 (v : JValue) : Except PyErr JValue :=
  if jfalsy v then .ok (.jstr "")
  else match v with
    | .jstr s => .ok (.jstr (strTake s 200))
    | .jlist xs => .ok (.jlist (xs.take 200))
    | _ => .error .typeError

/-- Python `str(x)` as the f-string `f"工具调用: {tool_name}"` applies it.
    Exact on the scalar shapes; the container shapes (which no claim touches)
    are abstracted. -/
def pyStr : JValue → String
  | .jnull => "None"
  | .jbool b => if b then "True" else "False"
  | .jint n => toString n
  | .jstr s => s
  | .jlist _ => "[...]"
  | .jobj _ => "\x7b...\x7d"

/-- A datetime argument: Python `int` (and `bool`, an `int` subtype); every
    other shape makes `datetime(...)` raise `TypeError`. -/
def argInt : JValue → Except PyErr Int
  | .jint n => .ok n
  | .jbool b => .ok (if b then 1 else 0)
  | _ => .error .typeError

def isLeap (y : Nat) : Bool := (y % 4 == 0 && y % 100 != 0) || y % 400 == 0

def daysInMonth (y m : Nat) : Nat :=
  if m = 2 then (if isLeap y then 29 else 28)
  else if m = 4 ∨ m = 6 ∨ m = 9 ∨ m = 11 then 30
  else 31

/-- A Python int that fits the C `int` the `datetime` constructor converts
    its arguments into (32 bits on the supported platforms). -/
def inCIntRange (x : Int) : Prop := -(2 ^ 31) ≤ x ∧ x ≤ 2 ^ 31 - 1

instance (x : Int) : Decidable (inCIntRange x) :=
  inferInstanceAs (Decidable (-(2 ^ 31) ≤ x ∧ x ≤ 2 ^ 31 - 1))

/-- Argument validation of the `datetime` constructor: an argument beyond the
    C-int range raises `OverflowError` (which `_parse_time` does not catch);
    in-range but out-of-bounds fields raise `ValueError`. -/
def mkDT (y mo d h mi s : Int) : Except PyErr DT :=
  if inCIntRange y ∧ inCIntRange mo ∧ inCIntRange d ∧
     inCIntRange h ∧ inCIntRange mi ∧ inCIntRange s then
    if 1 ≤ y ∧ y ≤ 9999 ∧ 1 ≤ mo ∧ mo ≤ 12 ∧ 1 ≤ d ∧
       d ≤ (daysInMonth y.toNat mo.toNat : Int) ∧
       0 ≤ h ∧ h ≤ 23 ∧ 0 ≤ mi ∧ mi ≤ 59 ∧ 0 ≤ s ∧ s ≤ 59 then
      .ok ⟨y.toNat, mo.toNat, d.toNat, h.toNat, mi.toNat, s.toNat⟩
    else .error .valueError
  else .error .overflowError

/-- `datetime(*args)` for at most six positional arguments: fewer than three
    arguments or a non-integer argument raises `TypeError`, out-of-range
    fields raise `ValueError`. -/
def mkDatetime (args : List JValue) : Except PyErr DT := do
  let ints ← args.mapM argInt
  match ints with
  | [y, mo, d] => mkDT y mo d 0 0 0
  | [y, mo, d, h] => mkDT y mo d h 0 0
  | [y, mo, d, h, mi] => mkDT y mo d h mi 0
  | [y, mo, d, h, mi, s] => mkDT y mo d h mi s
  | _ => .error .typeError

def digit2 (a b : Char) : Except PyErr Nat :=
  if a.isDigit ∧ b.isDigit then
    .ok ((a.toNat - '0'.toNat) * 10 + (b.toNat - '0'.toNat))
  else .error .valueError

def digit4 (a b c d : Char) : Except PyErr Nat :=
  if a.isDigit ∧ b.isDigit ∧ c.isDigit ∧ d.isDigit then
    .ok (((a.toNat - '0'.toNat) * 10 + (b.toNat - '0'.toNat)) * 100 +
         (c.toNat - '0'.toNat) * 10 + (d.toNat - '0'.toNat))
  else .error .valueError

/-- Strip a trailing `+00:00` offset before shape matching. -/
def isoStrip (l : List Char) : List Char :=
  if decide ("+00:00".data <:+ l) then l.take (l.length - 6) else l

/-- Modelled from the spec: `datetime.fromisoformat` is a standard-library
    collaborator outside `src/`; per §4.1 and the backend docstring it
    receives Java `LocalDateTime` text `YYYY-MM-DDTHH:MM:SS[.ffffff]`
    (optionally with the `+00:00` offset the caller substitutes for `Z`).
    Those shapes are parsed; everything else reports `ValueError`. -/
def fromisoformat (s : String) : Except PyErr DT := do
  match isoStrip s.data with
  | [y1, y2, y3, y4, '-', m1, m2, '-', d1, d2] =>
    mkDT (← digit4 y1 y2 y3 y4) (← digit2 m1 m2) (← digit2 d1 d2) 0 0 0
  | y1 :: y2 :: y3 :: y4 :: '-' :: m1 :: m2 :: '-' :: d1 :: d2 :: 'T' ::
      h1 :: h2 :: ':' :: n1 :: n2 :: ':' :: s1 :: s2 :: rest =>
    if rest = [] ∨ (rest.head? = some '.' ∧ rest.tail ≠ [] ∧ rest.tail.all Char.isDigit) then
      mkDT (← digit4 y1 y2 y3 y4) (← digit2 m1 m2) (← digit2 d1 d2)
        (← digit2 h1 h2) (← digit2 n1 n2) (← digit2 s1 s2)
    else .error .valueError
  | _ => .error .valueError

/-- The body of `_parse_time`'s `try` block: the two `isinstance` branches,
    falling through to `return None` (reached outside the `try`, but
    equivalent here since the fall-through cannot raise). -/
def parse_time_inner (v : JValue) : Except PyErr (Option DT) :=
  match v with
  | .jlist xs => (mkDatetime (xs.take 6)).map some
  | .jstr s => (fromisoformat (replaceZ s)).map some
  | _ => .ok none

/-- `AdvancedTimelineVisualizer._parse_time`: falsy values are absent; the
    `try` body runs with `ValueError` and `TypeError` caught (any other
    exception would propagate). -/
def parse_time_raw (v : JValue) : Except PyErr (Option DT) :=
  if jfalsy v then .ok none
  else match parse_time_inner v with
    | .ok o => .ok o
    | .error .valueError => .ok none
    | .error .typeError => .ok none
    | .error e => .error e

/-- `_extract_step_name` on a raw value: `.split` exists only on strings. -/
def extract_step_name_raw (v : JValue) (n : Nat) : Except PyErr String :=
  match v with
  | .jstr s => .ok (extract_step_name s n)
  | _ => .error .attributeError

/-- One tool-call event (lines 226-251), raw. -/
def toolEventRaw (tool : JValue) (start_time : Option DT) : Except PyErr TimelineEvent := do
  let tool_name ← jget tool "toolName" (.jstr "unknown")
  let tool_status ← jget tool "toolExecuteStatus" (.jstr "unknown")
  let tool_result ← jget tool "result" (.jstr "")
  let lower ← jlowerStr tool_name
  let is_recovery := hasSubStr lower "repair" || hasSubStr lower "fix"
  let is_error_tool := hasSubStr lower "error"
  let base := if jeqStr tool_status "success" then "success" else "error"
  let event_status := if is_recovery then "recovery" else if is_error_tool then "error" else base
  let sliced ← jslice200 tool_result
  pure { event_type := "tool_call", timestamp := start_time,
         description := "工具调用: " ++ pyStr tool_name, status := event_status,
         details := [("tool_name", tool_name), ("status", tool_status), ("result", sliced)] }

/-- One think-act turn (lines 207-251), raw. -/
def turnEventsRaw (ta : JValue) (turn_n : Nat) (start_time : Option DT) :
    Except PyErr (List TimelineEvent) := do
  let think_input ← jget ta "thinkInput" (.jstr "")
  let think_output ← jget ta "thinkOutput" (.jstr "")
  let thinkEvs :=
    if !jfalsy think_input || !jfalsy think_output then
      [{ event_type := "think", timestamp := start_time,
         description := "思考过程 (Turn " ++ toString turn_n ++ ")", status := "info",
         details := [("input", think_input), ("output", think_output)] : TimelineEvent }]
    else []
  let tools ← jiter (← jget ta "actToolInfoList" (.jlist []))
  let toolEvs ← tools.mapM (fun tool => toolEventRaw tool start_time)
  pure (thinkEvs ++ toolEvs)

/-- One step of the loop body (lines 190-261), raw, in source statement
    order (so the first raising access wins). -/
def stepEventsRaw (step : JValue) (n : Nat) : Except PyErr (List TimelineEvent) := do
  let step_name ← extract_step_name_raw (← jget step "agentRequest" (.jstr "")) n
  let start_time ← parse_time_raw (← jget step "startTime" .jnull)
  let end_time ← parse_time_raw (← jget step "endTime" .jnull)
  let status ← jget step "status" (.jstr "unknown")
  let startEvs : List TimelineEvent :=
    match start_time with
    | some t => [{ event_type := "step_start", timestamp := some t,
                   description := "步骤 " ++ toString n ++ ": " ++ step_name,
                   status := "running", details := [] }]
    | none => []
  let tas ← jiter (← jget step "thinkActSteps" (.jlist []))
  let turnEvss ← tas.enum.mapM (fun p => turnEventsRaw p.2 (p.1 + 1) start_time)
  let endEvs : List TimelineEvent :=
    match end_time with
    | some t => [{ event_type := "step_end", timestamp := some t,
                   description := "步骤 " ++ toString n ++ " 完成",
                   status := if jeqStr status "FINISHED" then "success" else "error",
                   details := [] }]
    | none => []
  pure (startEvs ++ turnEvss.flatten ++ endEvs)

/-- `AdvancedTimelineVisualizer.parse_execution_data` over an arbitrary raw
    value, with Python's raising behaviour made explicit. -/
def parse_raw (execution_data : JValue) : Except PyErr (List TimelineEvent) := do
  let agent_sequence ← jget execution_data "agentExecutionSequence" (.jlist [])
  let steps ← jiter agent_sequence
  let evss ← steps.enum.mapM (fun p => stepEventsRaw p.2 (p.1 + 1))
  pure (evss.flatten.mergeSort eventLE)

/-! ## Encoding typed snapshots back into raw JSON -/

/-- A `DT` whose fields `datetime` would accept. -/
def DT.valid (d : DT) : Bool :=
  1 ≤ d.year && d.year ≤ 9999 && 1 ≤ d.month && d.month ≤ 12 && 1 ≤ d.day &&
  d.day ≤ daysInMonth d.year d.month && d.hour ≤ 23 && d.minute ≤ 59 && d.second ≤ 59

def encodeDT (d : DT) : JValue :=
  .jlist [.jint d.year, .jint d.month, .jint d.day, .jint d.hour, .jint d.minute, .jint d.second]

def encodeTool (tc : ToolCallRecord) : JValue :=
  .jobj [("toolName", .jstr tc.toolName),
         ("toolExecuteStatus", .jstr tc.toolExecuteStatus),
         ("result", .jstr tc.result)]

def encodeTurn (ta : TurnRecord) : JValue :=
  .jobj [("thinkInput", .jstr ta.thinkInput),
         ("thinkOutput", .jstr ta.thinkOutput),
         ("actToolInfoList", .jlist (ta.actToolInfoList.map encodeTool))]

def encodeStep (st : StepRecord) : JValue :=
  .jobj ([("agentRequest", .jstr st.agentRequest)] ++
         (match st.startTime with | some d => [("startTime", encodeDT d)] | none => []) ++
         (match st.endTime with | some d => [("endTime", encodeDT d)] | none => []) ++
         [("status", .jstr st.status),
          ("thinkActSteps", .jlist (st.thinkActSteps.map encodeTurn))])

def encodeSnapshot (ed : ExecutionSnapshot) : JValue :=
  .jobj [("completed", .jbool ed.completed),
         ("agentExecutionSequence", .jlist (ed.agentExecutionSequence.map encodeStep))]

/-- Every instant mentioned by the snapshot is one `datetime` would accept. -/
def ExecutionSnapshot.validTimes (ed : ExecutionSnapshot) : Prop :=
  ∀ st ∈ ed.agentExecutionSequence,
    st.startTime.all DT.valid = true ∧ st.endTime.all DT.valid = true

instance (ed : ExecutionSnapshot) : Decidable ed.validTimes :=
  inferInstanceAs (Decidable (∀ st ∈ ed.agentExecutionSequence,
    st.startTime.all DT.valid = true ∧ st.endTime.all DT.valid = true))

/-- Spec-side substring containment (`§4.2/§4.3` "contains the substring"). -/
def specHasSub (s pat : String) : Prop := pat.data <:+: s.data

theorem hasSubStr_iff (s pat : String) : hasSubStr s pat = true ↔ specHasSub s pat :=
  decide_eq_true_iff

instance (s pat : String) : Decidable (specHasSub s pat) :=
  inferInstanceAs (Decidable (pat.data <:+: s.data))

/-! ## Helper lemmas -/

theorem lexLE_refl (l : List Nat) : lexLE l l = true := by
  induction l with
  | nil => rfl
  | cons a as ih => simp [lexLE, ih]

theorem lexLE_total : ∀ l₁ l₂ : List Nat, (lexLE l₁ l₂ || lexLE l₂ l₁) = true
  | [], l₂ => by simp [lexLE]
  | a :: as, [] => by simp [lexLE]
  | a :: as, b :: bs => by
    simp only [lexLE]
    by_cases h1 : a < b
    · simp [h1]
    · by_cases h2 : b < a
      · simp [h1, h2]
      · simp [h1, h2, lexLE_total as bs]

theorem lexLE_trans : ∀ l₁ l₂ l₃ : List Nat,
    lexLE l₁ l₂ = true → lexLE l₂ l₃ = true → lexLE l₁ l₃ = true
  | [], _, _ => by simp [lexLE]
  | a :: as, [], _ => by simp [lexLE]
  | a :: as, b :: bs, [] => by intro _ h; simp [lexLE] at h
  | a :: as, b :: bs, c :: cs => by
    intro h1 h2
    simp only [lexLE] at h1 h2 ⊢
    by_cases hab : a < b
    · by_cases hbc : b < c
      · simp [Nat.lt_trans hab hbc]
      · by_cases hcb : c < b
        · simp [hbc, hcb] at h2
        · have hbc' : b = c := Nat.le_antisymm (Nat.not_lt.mp hcb) (Nat.not_lt.mp hbc)
          subst hbc'
          simp [hab]
    · by_cases hba : b < a
      · simp [hab, hba] at h1
      · have hab' : a = b := Nat.le_antisymm (Nat.not_lt.mp hba) (Nat.not_lt.mp hab)
        subst hab'
        rw [if_neg (Nat.lt_irrefl a), if_neg (Nat.lt_irrefl a)] at h1
        by_cases hbc : a < c
        · simp [hbc]
        · by_cases hcb : c < a
          · simp [hbc, hcb] at h2
          · have hbc' : a = c := Nat.le_antisymm (Nat.not_lt.mp hcb) (Nat.not_lt.mp hbc)
            subst hbc'
            rw [if_neg (Nat.lt_irrefl a), if_neg (Nat.lt_irrefl a)] at h2
            rw [if_neg (Nat.lt_irrefl a), if_neg (Nat.lt_irrefl a)]
            exact lexLE_trans as bs cs h1 h2

theorem eventLE_total (a b : TimelineEvent) : (eventLE a b || eventLE b a) = true :=
  lexLE_total _ _

theorem eventLE_trans (a b c : TimelineEvent) :
    eventLE a b → eventLE b c → eventLE a c :=
  fun h1 h2 => lexLE_trans _ _ _ h1 h2

theorem eventLE_of_timestamp_eq {a b : TimelineEvent} (h : a.timestamp = b.timestamp) :
    eventLE a b = true := by
  unfold eventLE
  rw [h]
  exact lexLE_refl _

/-- `mapM` into `Except` succeeds pointwise. -/
theorem mapM_ok {α β : Type} {f : α → Except PyErr β} {g : α → β} :
    ∀ {l : List α}, (∀ x ∈ l, f x = .ok (g x)) → l.mapM f = .ok (l.map g)
  | [], _ => rfl
  | x :: xs, h => by
    rw [List.mapM_cons, h x (List.mem_cons_self x xs),
      mapM_ok (fun y hy => h y (List.mem_cons_of_mem x hy))]
    rfl

theorem enumFrom_map {α β : Type} (f : α → β) :
    ∀ (n : Nat) (l : List α), (l.map f).enumFrom n = (l.enumFrom n).map (fun p => (p.1, f p.2))
  | _, [] => rfl
  | n, x :: xs => by
    simp only [List.map_cons, List.enumFrom_cons, enumFrom_map f (n + 1) xs]

theorem enum_map {α β : Type} (f : α → β) (l : List α) :
    (l.map f).enum = l.enum.map (fun p => (p.1, f p.2)) :=
  enumFrom_map f 0 l

/-- Every event a turn contributes inherits the given start instant and is a
    think or a tool-call event. -/
theorem mem_turnEvents {e : TimelineEvent} {ta : TurnRecord} {n : Nat} {st : Option DT}
    (h : e ∈ turnEvents ta n st) :
    e.timestamp = st ∧ (e.event_type = "think" ∨ e.event_type = "tool_call") := by
  unfold turnEvents at h
  rcases List.mem_append.mp h with h | h
  · split at h
    · rcases List.mem_singleton.mp h with rfl
      exact ⟨rfl, Or.inl rfl⟩
    · cases h
  · obtain ⟨tool, -, rfl⟩ := List.mem_map.mp h
    exact ⟨rfl, Or.inr rfl⟩

theorem mem_stepMidEvents {e : TimelineEvent} {step : StepRecord}
    (h : e ∈ stepMidEvents step) :
    e.timestamp = step.startTime ∧ (e.event_type = "think" ∨ e.event_type = "tool_call") := by
  unfold stepMidEvents at h
  obtain ⟨p, -, he⟩ := List.mem_flatMap.mp h
  exact mem_turnEvents he

theorem sublist_flatMap_of_mem {α β : Type} {x : α} {l : List α} (f : α → List β)
    (h : x ∈ l) : f x <+ l.flatMap f := by
  obtain ⟨s, t, rfl⟩ := List.append_of_mem h
  rw [List.flatMap_append, List.flatMap_cons]
  exact List.sublist_append_of_sublist_right (List.sublist_append_left _ _)

/-- With a start instant present, the step's event block starts with the
    step-start event. -/
theorem stepEvents_start_cons {step : StepRecord} {n : Nat} {t : DT}
    (h : step.startTime = some t) :
    stepEvents step n = stepStartEvent step n t ::
      (stepMidEvents step ++
        (match step.endTime with | some u => [stepEndEvent step n u] | none => [])) := by
  unfold stepEvents
  rw [h]
  simp

theorem mem_parse_of_mem_stepEvents {ed : ExecutionSnapshot} {i : Nat} {step : StepRecord}
    {e : TimelineEvent} (hi : ed.agentExecutionSequence[i]? = some step)
    (he : e ∈ stepEvents step (i + 1)) : e ∈ parse_execution_data ed := by
  unfold parse_execution_data
  rw [List.mem_mergeSort]
  exact List.mem_flatMap.mpr ⟨(i, step), List.mk_mem_enum_iff_getElem?.mpr hi, he⟩

/-- Stability transfer: an ordered pair inside one step's block survives the
    final timestamp sort. -/
theorem pair_sublist_parse {ed : ExecutionSnapshot} {i : Nat} {step : StepRecord}
    {a b : TimelineEvent} (hi : ed.agentExecutionSequence[i]? = some step)
    (hab : eventLE a b = true) (h : [a, b] <+ stepEvents step (i + 1)) :
    [a, b] <+ parse_execution_data ed := by
  unfold parse_execution_data
  exact List.pair_sublist_mergeSort eventLE_trans eventLE_total hab
    (h.trans (sublist_flatMap_of_mem (fun p => stepEvents p.2 (p.1 + 1))
      (List.mk_mem_enum_iff_getElem?.mpr hi)))

/-- The emission invariant of the delta loop: starting from an already
    reported prefix, the loop emits exactly the missing suffixes. -/
theorem monitorEmit_chain :
    ∀ (polls : List (List TimelineEvent)) (prev : List TimelineEvent),
      List.Chain' (· <+: ·) (prev :: polls) →
      prev ++ monitorEmit prev.length polls = (prev :: polls).getLast (List.cons_ne_nil _ _)
  | [], prev, _ => by simp [monitorEmit]
  | evs :: rest, prev, hch => by
    have h1 : prev <+: evs := (List.chain'_cons.mp hch).1
    have h2 : List.Chain' (· <+: ·) (evs :: rest) := (List.chain'_cons.mp hch).2
    rw [List.getLast_cons (List.cons_ne_nil _ _)]
    unfold monitorEmit
    by_cases hlen : evs.length > prev.length
    · rw [if_pos hlen, ← List.append_assoc]
      obtain ⟨t, rfl⟩ := h1
      rw [List.drop_left]
      exact monitorEmit_chain rest (prev ++ t) h2
    · rw [if_neg hlen]
      have hpe : prev = evs := h1.eq_of_length_le (Nat.not_lt.mp hlen)
      rw [← hpe] at h2 ⊢
      exact monitorEmit_chain rest prev h2

/-- The characterization of `splitFirstColon`: either there is no colon, or
    the list splits at its first colon. -/
theorem splitFirstColon_spec :
    ∀ cs : List Char,
      (splitFirstColon cs = none ∧ ':' ∉ cs) ∨
      ∃ pre post, splitFirstColon cs = some (pre, post) ∧
        cs = pre ++ ':' :: post ∧ ':' ∉ pre
  | [] => Or.inl ⟨rfl, by simp⟩
  | c :: cs => by
    by_cases hc : c = ':'
    · subst hc
      exact Or.inr ⟨[], cs, by simp [splitFirstColon], by simp, by simp⟩
    · rcases splitFirstColon_spec cs with ⟨h1, h2⟩ | ⟨pre, post, h1, h2, h3⟩
      · refine Or.inl ⟨?_, ?_⟩
        · simp [splitFirstColon, hc, h1]
        · intro hmem
          rcases List.mem_cons.mp hmem with h | h
          · exact hc h.symm
          · exact h2 h
      · refine Or.inr ⟨c :: pre, post, ?_, by simp [h2], ?_⟩
        · simp [splitFirstColon, hc, h1]
        · intro hmem
          rcases List.mem_cons.mp hmem with h | h
          · exact hc h.symm
          · exact h3 h

/-! ## Claim C1 -/

/-- Concrete snapshot for C1: one step with neither start nor end instant
    whose single turn carries non-empty think text. -/
def edC1 : ExecutionSnapshot :=
  ⟨false, [⟨"Step 1: Analyze", none, none, "RUNNING", [⟨"", "analyzing", []⟩]⟩]⟩

/-- C1 is false on the code: for a step with neither start nor end instant
    whose turn carries think text, `parse_execution_data` still emits a think
    event (with absent timestamp), not "no events at all". -/
theorem c1_counterexample :
    edC1.agentExecutionSequence.all
      (fun st => st.startTime == none && st.endTime == none) = true ∧
    parse_execution_data edC1 = [thinkEvent ⟨"", "analyzing", []⟩ 1 none] ∧
    parse_execution_data edC1 ≠ [] := by
  have h : parse_execution_data edC1 = [thinkEvent ⟨"", "analyzing", []⟩ 1 none] := by
    unfold parse_execution_data
    rw [show edC1.agentExecutionSequence.enum.flatMap (fun p => stepEvents p.2 (p.1 + 1)) =
      [thinkEvent ⟨"", "analyzing", []⟩ 1 none] from rfl]
    exact List.mergeSort_singleton _
  exact ⟨rfl, h, h ▸ List.cons_ne_nil _ _⟩

/-- C1 (amended): a step with neither start nor end instant contributes no
    step-start and no step-end event, but its think and tool-call events are
    still emitted (with absent timestamps) and do reach the normalized list. -/
theorem c1_no_times_still_emits_mid_events (step : StepRecord) (n : Nat)
    (h1 : step.startTime = none) (h2 : step.endTime = none) :
    stepEvents step n = stepMidEvents step ∧
    (∀ e ∈ stepMidEvents step,
      (e.event_type = "think" ∨ e.event_type = "tool_call") ∧ e.timestamp = none) ∧
    (∀ (ed : ExecutionSnapshot) (i : Nat), ed.agentExecutionSequence[i]? = some step →
      ∀ e ∈ stepMidEvents step, e ∈ parse_execution_data ed) := by
  have hs : stepEvents step n = stepMidEvents step := by
    unfold stepEvents
    rw [h1, h2]
    simp
  refine ⟨hs, ?_, ?_⟩
  · intro e he
    have h := mem_stepMidEvents he
    exact ⟨h.2, h.1.trans h1⟩
  · intro ed i hi e he
    refine mem_parse_of_mem_stepEvents hi ?_
    unfold stepEvents
    rw [h1, h2]
    simpa using he

/-- Witness for the amended C1 at a concrete step with both think text and a
    tool call but no instants. -/
theorem c1_witness :
    stepEvents ⟨"goal", none, none, "RUNNING", [⟨"t", "", [⟨"tool-a", "success", "r"⟩]⟩]⟩ 1 =
      stepMidEvents ⟨"goal", none, none, "RUNNING", [⟨"t", "", [⟨"tool-a", "success", "r"⟩]⟩]⟩ :=
  (c1_no_times_still_emits_mid_events
    ⟨"goal", none, none, "RUNNING", [⟨"t", "", [⟨"tool-a", "success", "r"⟩]⟩]⟩ 1 rfl rfl).1

/-! ## Claim C2 -/

/-- C2 is false on the code: on a poll observing 1 step with prior estimate 0
    (and the plan not completed), the reported progress is 100%, not the 33%
    the claim's `1 / max(1, 0, 3)` formula gives, and not strictly below
    100%. -/
theorem c2_counterexample :
    (pollProgress 0 1).2 = 100 ∧
    min 100 (progressPercentFloat 1 (max 1 (max 0 3))) = 33 ∧ (100 : Nat) ≠ 33 := by decide

/-- C2 (amended): at every poll observing at least one step, the monitor
    reports `int((observed / max(observed, prior estimate)) * 100)` — the
    floor of 3 is dead code because the loop raises the estimate to at least
    the observed count before `_get_progress_info` runs, so the percentage
    can reach 100 before completion. -/
theorem c2_progress_formula (estimate n : Nat) (hn : 0 < n) :
    pollProgress estimate n =
      (max estimate n, min 100 (progressPercentFloat n (max estimate n))) := by
  simp only [pollProgress]
  have h1 : (if n > estimate then n else estimate) = max estimate n := by
    rcases Nat.lt_or_ge estimate n with h | h
    · rw [if_pos h, Nat.max_eq_right (Nat.le_of_lt h)]
    · rw [if_neg (Nat.not_lt.mpr h), Nat.max_eq_left h]
  rw [h1]
  have h2 : ¬(max estimate n = 0 ∧ n > 0) := by
    rintro ⟨h0, -⟩
    have := Nat.le_max_right estimate n
    omega
  rw [if_neg h2]
  have h3 : max (max estimate n) n = max estimate n :=
    Nat.max_eq_left (Nat.le_max_right _ _)
  rw [h3]
  rw [if_pos (Nat.lt_of_lt_of_le hn (Nat.le_max_right _ _))]

/-- Witness for the amended C2. -/
theorem c2_witness :
    pollProgress 5 2 = (max 5 2, min 100 (progressPercentFloat 2 (max 5 2))) :=
  c2_progress_formula 5 2 (by decide)

/-! ## Claim C3 -/

/-- C3: across polls whose normalized event lists extend each other as
    prefixes, the live feed receives exactly the final full list — each event
    once, in order, no duplicates, no gaps. -/
theorem c3_delta_emission (polls : List (List TimelineEvent)) (hne : polls ≠ [])
    (hchain : List.Chain' (· <+: ·) polls) :
    monitorEmit 0 polls = polls.getLast hne := by
  cases polls with
  | nil => exact absurd rfl hne
  | cons p ps =>
    have h := monitorEmit_chain (p :: ps) []
      (List.chain'_cons'.mpr ⟨fun y _ => List.nil_prefix, hchain⟩)
    rw [List.getLast_cons (List.cons_ne_nil _ _)] at h
    simpa using h

/-- Witness for C3 on a two-poll prefix chain. -/
theorem c3_witness :
    monitorEmit 0 [[thinkEvent ⟨"a", "", []⟩ 1 none],
        [thinkEvent ⟨"a", "", []⟩ 1 none, thinkEvent ⟨"b", "", []⟩ 2 none]] =
      [[thinkEvent ⟨"a", "", []⟩ 1 none],
        [thinkEvent ⟨"a", "", []⟩ 1 none, thinkEvent ⟨"b", "", []⟩ 2 none]].getLast
        (List.cons_ne_nil _ _) :=
  c3_delta_emission _ (List.cons_ne_nil _ _)
    (List.chain'_cons.mpr ⟨⟨[thinkEvent ⟨"b", "", []⟩ 2 none], rfl⟩, List.chain'_singleton _⟩)

/-! ## Claim C4 -/

/-- C4 is false on the code: a transient fetch error raises `RuntimeError`
    and aborts the poll loop — the monitor never reaches the next poll, even
    when that poll would have returned a completed snapshot. Only the
    not-found case terminates with the Failed (`None`) result. -/
theorem c4_counterexample :
    tmMonitor 0 0 [FetchOutcome.transientError, FetchOutcome.ok ⟨true, []⟩] =
      MonitorResult.raised "RuntimeError" ∧
    tmMonitor 0 0 [FetchOutcome.ok ⟨true, []⟩] = MonitorResult.completed ⟨true, []⟩ := by
  exact ⟨rfl, rfl⟩

/-- C4 (amended): a not-found fetch terminates the loop in the Failed state,
    and a transient fetch error also terminates it — by an uncaught
    `RuntimeError` rather than by continuing to poll; the two outcomes are
    distinguished. -/
theorem c4_fetch_failure_handling (rest : List FetchOutcome) (lsc est : Nat) :
    tmMonitor lsc est (FetchOutcome.transientError :: rest) =
      MonitorResult.raised "RuntimeError" ∧
    tmMonitor lsc est (FetchOutcome.notFound :: rest) = MonitorResult.failedNotFound ∧
    MonitorResult.raised "RuntimeError" ≠ MonitorResult.failedNotFound :=
  ⟨rfl, rfl, fun h => MonitorResult.noConfusion h⟩

/-! ## Claim C5 -/

/-- C5 is false on the code: the step name is the text after the first colon
    of the first line (stripped), not the text before it. -/
theorem c5_counterexample :
    extract_step_name "Step 1: Download data" 1 = "Download data" ∧
    splitFirstColon (firstLineChars "Step 1: Download data") =
      some ("Step 1".data, " Download data".data) ∧
    (stepStartEvent ⟨"Step 1: Download data", some ⟨2026, 1, 21, 12, 0, 0⟩, none, "RUNNING", []⟩
        1 ⟨2026, 1, 21, 12, 0, 0⟩).description = "步骤 1: Download data" ∧
    ("Download data" : String) ≠ "Step 1" := by
  refine ⟨rfl, rfl, rfl, by decide⟩

/-- C5 (amended): a step with a present start instant yields a step-start
    event first in its block, status `running`, timestamped at the start
    instant, with description `"步骤 <n>: <name>"` where `<name>` is the text
    after the first `:` of the first line of the goal text, stripped, and
    defaults to `"步骤 <n>"` when no colon exists. -/
theorem c5_step_start_event (step : StepRecord) (n : Nat) (t : DT)
    (h : step.startTime = some t) :
    (stepEvents step n).head? = some (stepStartEvent step n t) ∧
    (stepStartEvent step n t).status = "running" ∧
    (stepStartEvent step n t).timestamp = some t ∧
    (stepStartEvent step n t).description =
      "步骤 " ++ toString n ++ ": " ++ extract_step_name step.agentRequest n ∧
    ((∃ pre post, firstLineChars step.agentRequest = pre ++ ':' :: post ∧ ':' ∉ pre ∧
        extract_step_name step.agentRequest n = pyStrip (String.mk post)) ∨
     (':' ∉ firstLineChars step.agentRequest ∧
        extract_step_name step.agentRequest n = "步骤 " ++ toString n)) := by
  refine ⟨?_, rfl, rfl, rfl, ?_⟩
  · rw [stepEvents_start_cons h]
    rfl
  · rcases splitFirstColon_spec (firstLineChars step.agentRequest) with
      ⟨h1, h2⟩ | ⟨pre, post, h1, h2, h3⟩
    · refine Or.inr ⟨h2, ?_⟩
      unfold extract_step_name
      rw [h1]
    · refine Or.inl ⟨pre, post, h2, h3, ?_⟩
      unfold extract_step_name
      rw [h1]

/-- Witness for the amended C5. -/
theorem c5_witness :
    (stepEvents ⟨"Step 1: Download data", some ⟨2026, 1, 21, 12, 0, 0⟩, none, "RUNNING", []⟩
        1).head? =
      some (stepStartEvent
        ⟨"Step 1: Download data", some ⟨2026, 1, 21, 12, 0, 0⟩, none, "RUNNING", []⟩
        1 ⟨2026, 1, 21, 12, 0, 0⟩) :=
  (c5_step_start_event
    ⟨"Step 1: Download data", some ⟨2026, 1, 21, 12, 0, 0⟩, none, "RUNNING", []⟩
    1 ⟨2026, 1, 21, 12, 0, 0⟩ rfl).1

/-! ## Claim C6 -/

/-- C6: the status of every emitted tool-call event is resolved by the fixed
    precedence — "repair"/"fix" in the lowered tool name gives `recovery`
    regardless of execution status; else "error" in the name gives `error`
    even when execution succeeded; else `success` exactly when the execution
    status is `success`, and `error` otherwise. -/
theorem c6_tool_call_status (name st : String) :
    (∀ (tc : ToolCallRecord) (ts : Option DT),
      (toolEvent tc ts).status = toolEventStatus tc.toolName tc.toolExecuteStatus) ∧
    ((specHasSub (pyLower name) "repair" ∨ specHasSub (pyLower name) "fix") →
      toolEventStatus name st = "recovery") ∧
    (¬(specHasSub (pyLower name) "repair" ∨ specHasSub (pyLower name) "fix") →
      specHasSub (pyLower name) "error" → toolEventStatus name st = "error") ∧
    (¬(specHasSub (pyLower name) "repair" ∨ specHasSub (pyLower name) "fix") →
      ¬specHasSub (pyLower name) "error" → st = "success" →
      toolEventStatus name st = "success") ∧
    (¬(specHasSub (pyLower name) "repair" ∨ specHasSub (pyLower name) "fix") →
      ¬specHasSub (pyLower name) "error" → st ≠ "success" →
      toolEventStatus name st = "error") := by
  refine ⟨fun tc ts => rfl, ?_, ?_, ?_, ?_⟩
  · intro h
    have hr : (hasSubStr (pyLower name) "repair" || hasSubStr (pyLower name) "fix") = true := by
      rcases h with h | h <;> simp [(hasSubStr_iff _ _).mpr h]
    simp [toolEventStatus, hr]
  · intro hn he
    have h1 : hasSubStr (pyLower name) "repair" = false :=
      Bool.eq_false_iff.mpr (fun hh => hn (Or.inl ((hasSubStr_iff _ _).mp hh)))
    have h2 : hasSubStr (pyLower name) "fix" = false :=
      Bool.eq_false_iff.mpr (fun hh => hn (Or.inr ((hasSubStr_iff _ _).mp hh)))
    have h3 : hasSubStr (pyLower name) "error" = true := (hasSubStr_iff _ _).mpr he
    simp [toolEventStatus, h1, h2, h3]
  · intro hn he hst
    have h1 : hasSubStr (pyLower name) "repair" = false :=
      Bool.eq_false_iff.mpr (fun hh => hn (Or.inl ((hasSubStr_iff _ _).mp hh)))
    have h2 : hasSubStr (pyLower name) "fix" = false :=
      Bool.eq_false_iff.mpr (fun hh => hn (Or.inr ((hasSubStr_iff _ _).mp hh)))
    have h3 : hasSubStr (pyLower name) "error" = false :=
      Bool.eq_false_iff.mpr (fun hh => he ((hasSubStr_iff _ _).mp hh))
    simp [toolEventStatus, h1, h2, h3, hst]
  · intro hn he hst
    have h1 : hasSubStr (pyLower name) "repair" = false :=
      Bool.eq_false_iff.mpr (fun hh => hn (Or.inl ((hasSubStr_iff _ _).mp hh)))
    have h2 : hasSubStr (pyLower name) "fix" = false :=
      Bool.eq_false_iff.mpr (fun hh => hn (Or.inr ((hasSubStr_iff _ _).mp hh)))
    have h3 : hasSubStr (pyLower name) "error" = false :=
      Bool.eq_false_iff.mpr (fun hh => he ((hasSubStr_iff _ _).mp hh))
    simp [toolEventStatus, h1, h2, h3, hst]

/-- Witness for C6, exercising all four precedence branches. -/
theorem c6_witness :
    toolEventStatus "auto-fix-tool" "error" = "recovery" ∧
    toolEventStatus "error-report-tool" "success" = "error" ∧
    toolEventStatus "fs-read" "success" = "success" ∧
    toolEventStatus "fs-read" "failed" = "error" :=
  ⟨(c6_tool_call_status "auto-fix-tool" "error").2.1 (Or.inr (by decide)),
   (c6_tool_call_status "error-report-tool" "success").2.2.1 (by decide) (by decide),
   (c6_tool_call_status "fs-read" "success").2.2.2.1 (by decide) (by decide) rfl,
   (c6_tool_call_status "fs-read" "failed").2.2.2.2 (by decide) (by decide) (by decide)⟩

/-! ## Claim C9 -/

theorem strTake_length (s : String) (n : Nat) : (strTake s n).length = min n s.length := by
  show (s.data.take n).length = min n s.data.length
  simp

theorem strTake_of_length_le (s : String) (n : Nat) (h : s.length ≤ n) : strTake s n = s := by
  unfold strTake
  rw [List.take_of_length_le h]

set_option maxRecDepth 4000 in
/-- C9 is false on the code: the 200-character result-payload truncation in
    normalization is a bare slice — a 201-character input yields 200
    characters, not the claimed N+3 = 203 characters with an ellipsis. -/
theorem c9_counterexample :
    (String.mk (List.replicate 201 'a')).length = 201 ∧
    (truncResult (String.mk (List.replicate 201 'a'))).length = 200 ∧
    ¬((truncResult (String.mk (List.replicate 201 'a'))).length = 200 + 3) := by
  decide

/-- C9 (amended): the renderer truncations (50- and 60-character) are the
    identity up to the limit and produce exactly N+3 characters (prefix plus
    ellipsis) beyond it; the 200-character result truncation is the identity
    up to the limit but beyond it keeps exactly the 200-character prefix with
    no ellipsis. -/
theorem c9_truncations (s : String) :
    (s.length ≤ 50 → truncDesc50 s = s) ∧
    (s.length > 50 → truncDesc50 s = strTake s 50 ++ "..." ∧ (truncDesc50 s).length = 53) ∧
    (s.length ≤ 60 → truncDetail60 s = s) ∧
    (s.length > 60 → truncDetail60 s = strTake s 60 ++ "..." ∧ (truncDetail60 s).length = 63) ∧
    (s.length ≤ 200 → truncResult s = s) ∧
    (s.length > 200 → truncResult s = strTake s 200 ∧ (truncResult s).length = 200) := by
  refine ⟨?_, ?_, ?_, ?_, ?_, ?_⟩
  · intro h
    unfold truncDesc50
    rw [if_neg (by omega)]
  · intro h
    unfold truncDesc50
    rw [if_pos h]
    refine ⟨rfl, ?_⟩
    rw [String.length_append, strTake_length]
    show min 50 s.length + 3 = 53
    omega
  · intro h
    unfold truncDetail60
    rw [if_neg (by omega)]
  · intro h
    unfold truncDetail60
    rw [if_pos h]
    refine ⟨rfl, ?_⟩
    rw [String.length_append, strTake_length]
    show min 60 s.length + 3 = 63
    omega
  · intro h
    unfold truncResult
    by_cases hs : s = ""
    · rw [if_pos hs, hs]
    · rw [if_neg hs]
      exact strTake_of_length_le s 200 h
  · intro h
    have hs : s ≠ "" := by
      intro hs
      rw [hs] at h
      exact absurd h (by decide)
    unfold truncResult
    rw [if_neg hs]
    refine ⟨rfl, ?_⟩
    rw [strTake_length]
    omega

def c9_long : String := String.mk (List.replicate 250 'x')

set_option maxRecDepth 4000 in
/-- Witness for the amended C9, exercising every branch. -/
theorem c9_witness :
    truncDesc50 "abc" = "abc" ∧
    (truncDesc50 c9_long = strTake c9_long 50 ++ "..." ∧ (truncDesc50 c9_long).length = 53) ∧
    truncDetail60 "abc" = "abc" ∧
    (truncDetail60 c9_long = strTake c9_long 60 ++ "..." ∧ (truncDetail60 c9_long).length = 63) ∧
    truncResult "abc" = "abc" ∧
    (truncResult c9_long = strTake c9_long 200 ∧ (truncResult c9_long).length = 200) :=
  ⟨(c9_truncations "abc").1 (by decide),
   (c9_truncations c9_long).2.1 (by decide),
   (c9_truncations "abc").2.2.1 (by decide),
   (c9_truncations c9_long).2.2.2.1 (by decide),
   (c9_truncations "abc").2.2.2.2.1 (by decide),
   (c9_truncations c9_long).2.2.2.2.2 (by decide)⟩

/-! ## Claim C7 -/

theorem foldl_analyze_inner (l : List ToolCallRecord) (n : Nat) (acc : List ErrorEntry) :
    l.foldl (fun a tc => if qualifiesForAnalysis tc then a ++ [analyze_error tc n] else a) acc =
      acc ++ (l.filter qualifiesForAnalysis).map (fun tc => analyze_error tc n) := by
  induction l generalizing acc with
  | nil => simp
  | cons tc l ih =>
    simp only [List.foldl_cons, List.filter_cons]
    by_cases h : qualifiesForAnalysis tc
    · rw [if_pos h, ih]
      simp [h]
    · rw [if_neg h, ih]
      simp [h]

theorem foldl_analyze_turns (ts : List TurnRecord) (n : Nat) (acc : List ErrorEntry) :
    ts.foldl (fun a ta =>
      ta.actToolInfoList.foldl
        (fun a tc => if qualifiesForAnalysis tc then a ++ [analyze_error tc n] else a) a) acc =
      acc ++ ts.flatMap (fun ta =>
        (ta.actToolInfoList.filter qualifiesForAnalysis).map (fun tc => analyze_error tc n)) := by
  induction ts generalizing acc with
  | nil => simp
  | cons ta ts ih =>
    simp only [List.foldl_cons, List.flatMap_cons]
    rw [foldl_analyze_inner, ih, List.append_assoc]

theorem foldl_analyze_steps (l : List (Nat × StepRecord)) (acc : List ErrorEntry) :
    l.foldl (fun a p =>
      p.2.thinkActSteps.foldl (fun a ta =>
        ta.actToolInfoList.foldl
          (fun a tc => if qualifiesForAnalysis tc then a ++ [analyze_error tc (p.1 + 1)] else a)
          a) a) acc =
      acc ++ l.flatMap (fun p => p.2.thinkActSteps.flatMap (fun ta =>
        (ta.actToolInfoList.filter qualifiesForAnalysis).map
          (fun tc => analyze_error tc (p.1 + 1)))) := by
  induction l generalizing acc with
  | nil => simp
  | cons p l ih =>
    simp only [List.foldl_cons, List.flatMap_cons]
    rw [foldl_analyze_turns, ih, List.append_assoc]

/-- C7: the Error Classifier produces one entry exactly for the tool calls
    whose execution status is not success or whose tool name contains "error"
    case-insensitively, in traversal order, and the category is assigned
    first-match-wins over the lowered result text in the fixed order
    file_not_found, validation_error, timeout, permission_error,
    unknown_error — so a text containing both "timeout" and "file not found"
    is classified file_not_found. -/
theorem c7_error_classifier :
    (∀ ed : ExecutionSnapshot,
      analyze ed = ((allToolCalls ed).filter (fun p => qualifiesForAnalysis p.2)).map
        (fun p => analyze_error p.2 p.1)) ∧
    (∀ tc : ToolCallRecord,
      qualifiesForAnalysis tc = true ↔
        (tc.toolExecuteStatus ≠ "success" ∨ specHasSub (pyLower tc.toolName) "error")) ∧
    (∀ msg : String,
      (specHasSub (pyLower msg) "file not found" ∨ specHasSub (pyLower msg) "no such file") →
      classify_error msg = "file_not_found") ∧
    (∀ msg : String,
      ¬(specHasSub (pyLower msg) "file not found" ∨ specHasSub (pyLower msg) "no such file") →
      (specHasSub (pyLower msg) "validation" ∨ specHasSub (pyLower msg) "invalid") →
      classify_error msg = "validation_error") ∧
    (∀ msg : String,
      ¬(specHasSub (pyLower msg) "file not found" ∨ specHasSub (pyLower msg) "no such file") →
      ¬(specHasSub (pyLower msg) "validation" ∨ specHasSub (pyLower msg) "invalid") →
      specHasSub (pyLower msg) "timeout" → classify_error msg = "timeout") ∧
    (∀ msg : String,
      ¬(specHasSub (pyLower msg) "file not found" ∨ specHasSub (pyLower msg) "no such file") →
      ¬(specHasSub (pyLower msg) "validation" ∨ specHasSub (pyLower msg) "invalid") →
      ¬specHasSub (pyLower msg) "timeout" → specHasSub (pyLower msg) "permission" →
      classify_error msg = "permission_error") ∧
    (∀ msg : String,
      ¬(specHasSub (pyLower msg) "file not found" ∨ specHasSub (pyLower msg) "no such file") →
      ¬(specHasSub (pyLower msg) "validation" ∨ specHasSub (pyLower msg) "invalid") →
      ¬specHasSub (pyLower msg) "timeout" → ¬specHasSub (pyLower msg) "permission" →
      classify_error msg = "unknown_error") := by
  refine ⟨?_, ?_, ?_, ?_, ?_, ?_, ?_⟩
  · intro ed
    unfold analyze allToolCalls
    rw [foldl_analyze_steps]
    simp only [List.nil_append, List.filter_flatMap, List.map_flatMap, List.filter_map,
      List.map_map]
    rfl
  · intro tc
    unfold qualifiesForAnalysis
    rw [Bool.or_eq_true, Bool.not_eq_true', beq_eq_false_iff_ne]
    exact or_congr Iff.rfl (hasSubStr_iff _ _)
  · intro msg h
    have hb : (hasSubStr (pyLower msg) "file not found" ||
        hasSubStr (pyLower msg) "no such file") = true := by
      rcases h with h | h <;> simp [(hasSubStr_iff _ _).mpr h]
    simp [classify_error, hb]
  · intro msg h1 h2
    have hb1 : hasSubStr (pyLower msg) "file not found" = false :=
      Bool.eq_false_iff.mpr (fun hh => h1 (Or.inl ((hasSubStr_iff _ _).mp hh)))
    have hb2 : hasSubStr (pyLower msg) "no such file" = false :=
      Bool.eq_false_iff.mpr (fun hh => h1 (Or.inr ((hasSubStr_iff _ _).mp hh)))
    have hb3 : (hasSubStr (pyLower msg) "validation" ||
        hasSubStr (pyLower msg) "invalid") = true := by
      rcases h2 with h | h <;> simp [(hasSubStr_iff _ _).mpr h]
    simp [classify_error, hb1, hb2, hb3]
  · intro msg h1 h2 h3
    have hb1 : hasSubStr (pyLower msg) "file not found" = false :=
      Bool.eq_false_iff.mpr (fun hh => h1 (Or.inl ((hasSubStr_iff _ _).mp hh)))
    have hb2 : hasSubStr (pyLower msg) "no such file" = false :=
      Bool.eq_false_iff.mpr (fun hh => h1 (Or.inr ((hasSubStr_iff _ _).mp hh)))
    have hb3 : hasSubStr (pyLower msg) "validation" = false :=
      Bool.eq_false_iff.mpr (fun hh => h2 (Or.inl ((hasSubStr_iff _ _).mp hh)))
    have hb4 : hasSubStr (pyLower msg) "invalid" = false :=
      Bool.eq_false_iff.mpr (fun hh => h2 (Or.inr ((hasSubStr_iff _ _).mp hh)))
    have hb5 : hasSubStr (pyLower msg) "timeout" = true := (hasSubStr_iff _ _).mpr h3
    simp [classify_error, hb1, hb2, hb3, hb4, hb5]
  · intro msg h1 h2 h3 h4
    have hb1 : hasSubStr (pyLower msg) "file not found" = false :=
      Bool.eq_false_iff.mpr (fun hh => h1 (Or.inl ((hasSubStr_iff _ _).mp hh)))
    have hb2 : hasSubStr (pyLower msg) "no such file" = false :=
      Bool.eq_false_iff.mpr (fun hh => h1 (Or.inr ((hasSubStr_iff _ _).mp hh)))
    have hb3 : hasSubStr (pyLower msg) "validation" = false :=
      Bool.eq_false_iff.mpr (fun hh => h2 (Or.inl ((hasSubStr_iff _ _).mp hh)))
    have hb4 : hasSubStr (pyLower msg) "invalid" = false :=
      Bool.eq_false_iff.mpr (fun hh => h2 (Or.inr ((hasSubStr_iff _ _).mp hh)))
    have hb5 : hasSubStr (pyLower msg) "timeout" = false :=
      Bool.eq_false_iff.mpr (fun hh => h3 ((hasSubStr_iff _ _).mp hh))
    have hb6 : hasSubStr (pyLower msg) "permission" = true := (hasSubStr_iff _ _).mpr h4
    simp [classify_error, hb1, hb2, hb3, hb4, hb5, hb6]
  · intro msg h1 h2 h3 h4
    have hb1 : hasSubStr (pyLower msg) "file not found" = false :=
      Bool.eq_false_iff.mpr (fun hh => h1 (Or.inl ((hasSubStr_iff _ _).mp hh)))
    have hb2 : hasSubStr (pyLower msg) "no such file" = false :=
      Bool.eq_false_iff.mpr (fun hh => h1 (Or.inr ((hasSubStr_iff _ _).mp hh)))
    have hb3 : hasSubStr (pyLower msg) "validation" = false :=
      Bool.eq_false_iff.mpr (fun hh => h2 (Or.inl ((hasSubStr_iff _ _).mp hh)))
    have hb4 : hasSubStr (pyLower msg) "invalid" = false :=
      Bool.eq_false_iff.mpr (fun hh => h2 (Or.inr ((hasSubStr_iff _ _).mp hh)))
    have hb5 : hasSubStr (pyLower msg) "timeout" = false :=
      Bool.eq_false_iff.mpr (fun hh => h3 ((hasSubStr_iff _ _).mp hh))
    have hb6 : hasSubStr (pyLower msg) "permission" = false :=
      Bool.eq_false_iff.mpr (fun hh => h4 ((hasSubStr_iff _ _).mp hh))
    simp [classify_error, hb1, hb2, hb3, hb4, hb5, hb6]

/-- Concrete snapshot for the C7 witness: one successful call, one
    successfully-executed error-reporting tool, one failed call. -/
def edC7 : ExecutionSnapshot :=
  ⟨true, [⟨"Step 1: work", some ⟨2026, 1, 21, 12, 0, 0⟩, none, "FINISHED",
    [⟨"think", "", [⟨"fs-read-file-operator", "success", "ok"⟩,
                    ⟨"error-report-tool", "success", "Error logged"⟩,
                    ⟨"fs-write-file-operator", "error", "timeout: file not found"⟩]⟩]⟩]⟩

/-- Witness for C7: the analyzer equation at a concrete snapshot, and the
    first-match classification of a text containing both "timeout" and
    "file not found". -/
theorem c7_witness :
    analyze edC7 = ((allToolCalls edC7).filter (fun p => qualifiesForAnalysis p.2)).map
      (fun p => analyze_error p.2 p.1) ∧
    classify_error "Error: TIMEOUT reading data - File not found" = "file_not_found" :=
  ⟨c7_error_classifier.1 edC7,
   c7_error_classifier.2.2.1 _ (Or.inl (by decide))⟩

/-! ## Claim C10 -/

/-- C10: for a step with a present start instant, every think and tool-call
    event of that step carries the step's start instant as its timestamp, and
    the step-start event precedes it in the sorted output — the pair survives
    the stable timestamp sort as a sublist of the normalized list. -/
theorem c10_step_start_before_children (ed : ExecutionSnapshot) (i : Nat)
    (step : StepRecord) (t : DT) (e : TimelineEvent)
    (hi : ed.agentExecutionSequence[i]? = some step)
    (hstart : step.startTime = some t)
    (he : e ∈ stepMidEvents step) :
    e.timestamp = some t ∧
    [stepStartEvent step (i + 1) t, e] <+ parse_execution_data ed := by
  have hts : e.timestamp = some t := (mem_stepMidEvents he).1.trans hstart
  refine ⟨hts, pair_sublist_parse hi ?_ ?_⟩
  · exact eventLE_of_timestamp_eq (by rw [hts]; rfl)
  · rw [stepEvents_start_cons hstart]
    exact List.Sublist.cons₂ _ (List.sublist_append_of_sublist_left
      (List.singleton_sublist.mpr he))

/-- Witness for C10 at a one-step snapshot with one think event. -/
theorem c10_witness :
    (thinkEvent ⟨"hmm", "", []⟩ 1 (some ⟨2026, 1, 21, 12, 0, 0⟩)).timestamp =
      some ⟨2026, 1, 21, 12, 0, 0⟩ ∧
    [stepStartEvent ⟨"g: x", some ⟨2026, 1, 21, 12, 0, 0⟩, none, "RUNNING",
        [⟨"hmm", "", []⟩]⟩ 1 ⟨2026, 1, 21, 12, 0, 0⟩,
      thinkEvent ⟨"hmm", "", []⟩ 1 (some ⟨2026, 1, 21, 12, 0, 0⟩)] <+
      parse_execution_data ⟨false, [⟨"g: x", some ⟨2026, 1, 21, 12, 0, 0⟩, none, "RUNNING",
        [⟨"hmm", "", []⟩]⟩]⟩ :=
  c10_step_start_before_children
    ⟨false, [⟨"g: x", some ⟨2026, 1, 21, 12, 0, 0⟩, none, "RUNNING", [⟨"hmm", "", []⟩]⟩]⟩
    0 ⟨"g: x", some ⟨2026, 1, 21, 12, 0, 0⟩, none, "RUNNING", [⟨"hmm", "", []⟩]⟩
    ⟨2026, 1, 21, 12, 0, 0⟩ (thinkEvent ⟨"hmm", "", []⟩ 1 (some ⟨2026, 1, 21, 12, 0, 0⟩))
    rfl rfl (by exact List.Mem.head _)

/-! ## Claim C8 -/

theorem except_bind_ok {α β : Type} (a : α) (f : α → Except PyErr β) :
    (Except.ok a >>= f : Except PyErr β) = f a := rfl

theorem except_bind_err {α β : Type} (e : PyErr) (f : α → Except PyErr β) :
    (Except.error e >>= f : Except PyErr β) = .error e := rfl

theorem except_pure_eq {α : Type} (a : α) : (pure a : Except PyErr α) = .ok a := rfl

theorem mapM_encode_map {α β γ : Type} (enc : α → β) (f : β → Except PyErr γ) (g : α → γ)
    (l : List α) (h : ∀ x ∈ l, f (enc x) = .ok (g x)) :
    (l.map enc).mapM f = .ok (l.map g) := by
  induction l with
  | nil => rfl
  | cons x xs ih =>
    rw [List.map_cons, List.mapM_cons, h x (List.mem_cons_self x xs),
      ih (fun y hy => h y (List.mem_cons_of_mem x hy))]
    rfl

theorem mkDT_of_valid (d : DT) (h : d.valid = true) :
    mkDT d.year d.month d.day d.hour d.minute d.second = .ok d := by
  unfold DT.valid at h
  simp only [Bool.and_eq_true, decide_eq_true_eq] at h
  unfold mkDT
  have hdm : daysInMonth d.year d.month ≤ 31 := by
    unfold daysInMonth
    split
    · split <;> omega
    · split <;> omega
  have hc : inCIntRange (d.year : Int) ∧ inCIntRange (d.month : Int) ∧
      inCIntRange (d.day : Int) ∧ inCIntRange (d.hour : Int) ∧
      inCIntRange (d.minute : Int) ∧ inCIntRange (d.second : Int) := by
    simp only [inCIntRange]
    omega
  rw [if_pos hc, if_pos ?_]
  · simp [Int.toNat_natCast]
  · simp only [Int.toNat_natCast]
    omega

theorem parse_time_raw_jnull : parse_time_raw .jnull = .ok none := rfl

theorem parse_time_raw_encodeDT (d : DT) (h : d.valid = true) :
    parse_time_raw (encodeDT d) = .ok (some d) := by
  have h1 : parse_time_inner (encodeDT d) =
      (mkDT d.year d.month d.day d.hour d.minute d.second).map some := rfl
  have h2 : jfalsy (encodeDT d) = false := rfl
  simp [parse_time_raw, h2, h1, mkDT_of_valid d h, Except.map]

theorem toolEventRaw_encode (tc : ToolCallRecord) (st : Option DT) :
    toolEventRaw (encodeTool tc) st = .ok (toolEvent tc st) := by
  obtain ⟨nm, stt, res⟩ := tc
  have g1 : jget (encodeTool ⟨nm, stt, res⟩) "toolName" (.jstr "unknown") = .ok (.jstr nm) := rfl
  have g2 : jget (encodeTool ⟨nm, stt, res⟩) "toolExecuteStatus" (.jstr "unknown") =
      .ok (.jstr stt) := rfl
  have g3 : jget (encodeTool ⟨nm, stt, res⟩) "result" (.jstr "") = .ok (.jstr res) := rfl
  simp only [toolEventRaw, g1, g2, g3, except_bind_ok, jlowerStr, jeqStr, jslice200, jfalsy]
  by_cases hres : res = "" <;> by_cases hst : stt = "success" <;>
    simp [toolEvent, toolEventStatus, truncResult, pyStr, hres, hst]

theorem turnEventsRaw_encode (ta : TurnRecord) (k : Nat) (st : Option DT)
    (htool : ∀ tc : ToolCallRecord, toolEventRaw (encodeTool tc) st = .ok (toolEvent tc st)) :
    turnEventsRaw (encodeTurn ta) k st = .ok (turnEvents ta k st) := by
  obtain ⟨ti, tout, tools⟩ := ta
  have g1 : jget (encodeTurn ⟨ti, tout, tools⟩) "thinkInput" (.jstr "") = .ok (.jstr ti) := rfl
  have g2 : jget (encodeTurn ⟨ti, tout, tools⟩) "thinkOutput" (.jstr "") = .ok (.jstr tout) := rfl
  have g3 : jget (encodeTurn ⟨ti, tout, tools⟩) "actToolInfoList" (.jlist []) =
      .ok (.jlist (tools.map encodeTool)) := rfl
  have g4 : (tools.map encodeTool).mapM (fun tool => toolEventRaw tool st) =
      .ok (tools.map (fun tool => toolEvent tool st)) :=
    mapM_encode_map encodeTool _ _ tools (fun x _ => htool x)
  simp only [turnEventsRaw, g1, g2, g3, except_bind_ok, jiter, g4]
  by_cases h1 : ti = "" <;> by_cases h2 : tout = "" <;>
    simp [turnEvents, thinkEvent, jfalsy, h1, h2, except_pure_eq]

theorem stepEventsRaw_encode (stp : StepRecord) (n : Nat)
    (hs : stp.startTime.all DT.valid = true)
    (he : stp.endTime.all DT.valid = true)
    (hturn : ∀ (ta : TurnRecord) (k : Nat) (sto : Option DT),
      turnEventsRaw (encodeTurn ta) k sto = .ok (turnEvents ta k sto)) :
    stepEventsRaw (encodeStep stp) n = .ok (stepEvents stp n) := by
  obtain ⟨ar, sOpt, eOpt, status, turns⟩ := stp
  have gturns : ∀ sto : Option DT,
      (turns.map encodeTurn).enum.mapM (fun p => turnEventsRaw p.2 (p.1 + 1) sto) =
        .ok (turns.enum.map (fun p => turnEvents p.2 (p.1 + 1) sto)) := by
    intro sto
    rw [List.enum_map]
    exact mapM_encode_map (Prod.map id encodeTurn) _
      (fun p => turnEvents p.2 (p.1 + 1) sto) _ (fun x _ => hturn x.2 (x.1 + 1) sto)
  rcases sOpt with _ | d1 <;> rcases eOpt with _ | d2
  · have g1 : jget (encodeStep ⟨ar, none, none, status, turns⟩) "agentRequest" (.jstr "") =
        .ok (.jstr ar) := rfl
    have g2 : jget (encodeStep ⟨ar, none, none, status, turns⟩) "startTime" .jnull =
        .ok .jnull := rfl
    have g3 : jget (encodeStep ⟨ar, none, none, status, turns⟩) "endTime" .jnull =
        .ok .jnull := rfl
    have g4 : jget (encodeStep ⟨ar, none, none, status, turns⟩) "status" (.jstr "unknown") =
        .ok (.jstr status) := rfl
    have g5 : jget (encodeStep ⟨ar, none, none, status, turns⟩) "thinkActSteps" (.jlist []) =
        .ok (.jlist (turns.map encodeTurn)) := rfl
    simp only [stepEventsRaw, g1, g2, g3, g4, g5, except_bind_ok, extract_step_name_raw,
      parse_time_raw_jnull, jiter, gturns, except_pure_eq]
    simp [stepEvents, stepMidEvents, List.flatMap_def]
  · have hd2 : d2.valid = true := by simpa using he
    have g1 : jget (encodeStep ⟨ar, none, some d2, status, turns⟩) "agentRequest" (.jstr "") =
        .ok (.jstr ar) := rfl
    have g2 : jget (encodeStep ⟨ar, none, some d2, status, turns⟩) "startTime" .jnull =
        .ok .jnull := rfl
    have g3 : jget (encodeStep ⟨ar, none, some d2, status, turns⟩) "endTime" .jnull =
        .ok (encodeDT d2) := rfl
    have g4 : jget (encodeStep ⟨ar, none, some d2, status, turns⟩) "status" (.jstr "unknown") =
        .ok (.jstr status) := rfl
    have g5 : jget (encodeStep ⟨ar, none, some d2, status, turns⟩) "thinkActSteps" (.jlist []) =
        .ok (.jlist (turns.map encodeTurn)) := rfl
    simp only [stepEventsRaw, g1, g2, g3, g4, g5, except_bind_ok, extract_step_name_raw,
      parse_time_raw_jnull, parse_time_raw_encodeDT d2 hd2, jiter, gturns, except_pure_eq]
    by_cases hstat : status = "FINISHED" <;>
      simp [stepEvents, stepMidEvents, stepEndEvent, List.flatMap_def, jeqStr, hstat]
  · have hd1 : d1.valid = true := by simpa using hs
    have g1 : jget (encodeStep ⟨ar, some d1, none, status, turns⟩) "agentRequest" (.jstr "") =
        .ok (.jstr ar) := rfl
    have g2 : jget (encodeStep ⟨ar, some d1, none, status, turns⟩) "startTime" .jnull =
        .ok (encodeDT d1) := rfl
    have g3 : jget (encodeStep ⟨ar, some d1, none, status, turns⟩) "endTime" .jnull =
        .ok .jnull := rfl
    have g4 : jget (encodeStep ⟨ar, some d1, none, status, turns⟩) "status" (.jstr "unknown") =
        .ok (.jstr status) := rfl
    have g5 : jget (encodeStep ⟨ar, some d1, none, status, turns⟩) "thinkActSteps" (.jlist []) =
        .ok (.jlist (turns.map encodeTurn)) := rfl
    simp only [stepEventsRaw, g1, g2, g3, g4, g5, except_bind_ok, extract_step_name_raw,
      parse_time_raw_jnull, parse_time_raw_encodeDT d1 hd1, jiter, gturns, except_pure_eq]
    simp [stepEvents, stepMidEvents, stepStartEvent, List.flatMap_def]
  · have hd1 : d1.valid = true := by simpa using hs
    have hd2 : d2.valid = true := by simpa using he
    have g1 : jget (encodeStep ⟨ar, some d1, some d2, status, turns⟩) "agentRequest" (.jstr "") =
        .ok (.jstr ar) := rfl
    have g2 : jget (encodeStep ⟨ar, some d1, some d2, status, turns⟩) "startTime" .jnull =
        .ok (encodeDT d1) := rfl
    have g3 : jget (encodeStep ⟨ar, some d1, some d2, status, turns⟩) "endTime" .jnull =
        .ok (encodeDT d2) := rfl
    have g4 : jget (encodeStep ⟨ar, some d1, some d2, status, turns⟩) "status" (.jstr "unknown") =
        .ok (.jstr status) := rfl
    have g5 : jget (encodeStep ⟨ar, some d1, some d2, status, turns⟩) "thinkActSteps"
        (.jlist []) = .ok (.jlist (turns.map encodeTurn)) := rfl
    simp only [stepEventsRaw, g1, g2, g3, g4, g5, except_bind_ok, extract_step_name_raw,
      parse_time_raw_encodeDT d1 hd1, parse_time_raw_encodeDT d2 hd2, jiter, gturns,
      except_pure_eq]
    by_cases hstat : status = "FINISHED" <;>
      simp [stepEvents, stepMidEvents, stepStartEvent, stepEndEvent, List.flatMap_def,
        jeqStr, hstat]

/-- The raw normalizer agrees with the typed one on every well-typed snapshot
    (so, in particular, it returns an event list without raising there). -/
theorem parse_raw_encode (ed : ExecutionSnapshot) (hv : ed.validTimes) :
    parse_raw (encodeSnapshot ed) = .ok (parse_execution_data ed) := by
  obtain ⟨comp, steps⟩ := ed
  have g1 : jget (encodeSnapshot ⟨comp, steps⟩) "agentExecutionSequence" (.jlist []) =
      .ok (.jlist (steps.map encodeStep)) := rfl
  have g2 : (steps.map encodeStep).enum.mapM (fun p => stepEventsRaw p.2 (p.1 + 1)) =
      .ok (steps.enum.map (fun p => stepEvents p.2 (p.1 + 1))) := by
    rw [List.enum_map]
    refine mapM_encode_map (Prod.map id encodeStep) _
      (fun p => stepEvents p.2 (p.1 + 1)) _ ?_
    intro x hx
    have hmem : x.2 ∈ steps := by
      have h := List.mem_map_of_mem Prod.snd hx
      rwa [List.enum_eq_enumFrom, List.enumFrom_map_snd] at h
    exact stepEventsRaw_encode x.2 (x.1 + 1) (hv x.2 hmem).1 (hv x.2 hmem).2
      (fun ta k sto => turnEventsRaw_encode ta k sto (fun tc => toolEventRaw_encode tc sto))
  simp only [parse_raw, g1, except_bind_ok, jiter, g2, except_pure_eq, parse_execution_data]
  simp [List.flatMap_def]

theorem argInt_err (v : JValue) (e : PyErr) (h : argInt v = .error e) : e = .typeError := by
  cases v <;> simp [argInt] at h <;> exact h.symm

theorem mapM_argInt_err :
    ∀ (l : List JValue) (e : PyErr), l.mapM argInt = .error e → e = .typeError
  | [], _ => fun h => nomatch h
  | x :: xs, e => by
    intro h
    rw [List.mapM_cons] at h
    cases hx : argInt x with
    | error e1 =>
      rw [hx, except_bind_err] at h
      injection h with h1
      exact h1 ▸ argInt_err x e1 hx
    | ok b =>
      rw [hx, except_bind_ok] at h
      cases hxs : xs.mapM argInt with
      | error e2 =>
        rw [hxs, except_bind_err] at h
        injection h with h1
        exact h1 ▸ mapM_argInt_err xs e2 hxs
      | ok bs =>
        rw [hxs, except_bind_ok] at h
        exact nomatch h

theorem mkDT_err (y mo d h mi s : Int) (e : PyErr)
    (hh : mkDT y mo d h mi s = .error e) : e = .valueError ∨ e = .overflowError := by
  unfold mkDT at hh
  split at hh
  · split at hh
    · exact nomatch hh
    · injection hh with h1
      exact Or.inl h1.symm
  · injection hh with h1
    exact Or.inr h1.symm

theorem mkDatetime_err (args : List JValue) (e : PyErr) (h : mkDatetime args = .error e) :
    e = .typeError ∨ e = .valueError ∨ e = .overflowError := by
  unfold mkDatetime at h
  cases hm : args.mapM argInt with
  | error e1 =>
    rw [hm, except_bind_err] at h
    injection h with h1
    exact Or.inl (h1 ▸ mapM_argInt_err args e1 hm)
  | ok ints =>
    rw [hm, except_bind_ok] at h
    split at h
    · exact Or.inr (mkDT_err _ _ _ _ _ _ e h)
    · exact Or.inr (mkDT_err _ _ _ _ _ _ e h)
    · exact Or.inr (mkDT_err _ _ _ _ _ _ e h)
    · exact Or.inr (mkDT_err _ _ _ _ _ _ e h)
    · injection h with h1
      exact Or.inl h1.symm

theorem digit2_err (a b : Char) (e : PyErr) (h : digit2 a b = .error e) : e = .valueError := by
  unfold digit2 at h
  split at h
  · exact nomatch h
  · injection h with h1
    exact h1.symm

theorem digit4_err (a b c d : Char) (e : PyErr) (h : digit4 a b c d = .error e) :
    e = .valueError := by
  unfold digit4 at h
  split at h
  · exact nomatch h
  · injection h with h1
    exact h1.symm

theorem except_bind_caught {α β : Type} {P : PyErr → Prop} (x : Except PyErr α)
    (f : α → Except PyErr β) (e : PyErr) (h : (x >>= f) = .error e)
    (hx : ∀ e1, x = .error e1 → P e1)
    (hf : ∀ a, f a = .error e → P e) : P e := by
  cases hv : x with
  | error e1 =>
    rw [hv, except_bind_err] at h
    injection h with h1
    exact h1 ▸ hx e1 hv
  | ok a =>
    rw [hv, except_bind_ok] at h
    exact hf a h

theorem fromisoformat_err (s : String) (e : PyErr) (h : fromisoformat s = .error e) :
    e = .valueError ∨ e = .overflowError := by
  unfold fromisoformat at h
  split at h
  · refine except_bind_caught _ _ e h
      (fun e1 h1 => Or.inl (digit4_err _ _ _ _ e1 h1)) (fun y hy => ?_)
    refine except_bind_caught _ _ e hy
      (fun e1 h1 => Or.inl (digit2_err _ _ e1 h1)) (fun mo hmo => ?_)
    refine except_bind_caught _ _ e hmo
      (fun e1 h1 => Or.inl (digit2_err _ _ e1 h1)) (fun d hd => ?_)
    exact mkDT_err _ _ _ _ _ _ e hd
  · split at h
    · refine except_bind_caught _ _ e h
        (fun e1 h1 => Or.inl (digit4_err _ _ _ _ e1 h1)) (fun y hy => ?_)
      refine except_bind_caught _ _ e hy
        (fun e1 h1 => Or.inl (digit2_err _ _ e1 h1)) (fun mo hmo => ?_)
      refine except_bind_caught _ _ e hmo
        (fun e1 h1 => Or.inl (digit2_err _ _ e1 h1)) (fun d hd => ?_)
      refine except_bind_caught _ _ e hd
        (fun e1 h1 => Or.inl (digit2_err _ _ e1 h1)) (fun hh hhh => ?_)
      refine except_bind_caught _ _ e hhh
        (fun e1 h1 => Or.inl (digit2_err _ _ e1 h1)) (fun mi hmi => ?_)
      refine except_bind_caught _ _ e hmi
        (fun e1 h1 => Or.inl (digit2_err _ _ e1 h1)) (fun ss hss => ?_)
      exact mkDT_err _ _ _ _ _ _ e hss
    · injection h with h1
      exact Or.inl h1.symm
  · injection h with h1
    exact Or.inl h1.symm

theorem parse_time_inner_err (v : JValue) (e : PyErr)
    (h : parse_time_inner v = .error e) :
    e = .typeError ∨ e = .valueError ∨ e = .overflowError := by
  cases v with
  | jlist xs =>
    simp only [parse_time_inner] at h
    cases hm : mkDatetime (xs.take 6) with
    | error e1 =>
      rw [hm] at h
      injection h with h1
      exact h1 ▸ mkDatetime_err _ e1 hm
    | ok d =>
      rw [hm] at h
      exact nomatch h
  | jstr s =>
    simp only [parse_time_inner] at h
    cases hm : fromisoformat (replaceZ s) with
    | error e1 =>
      rw [hm] at h
      injection h with h1
      rcases fromisoformat_err _ e1 hm with h2 | h2
      · exact Or.inr (Or.inl (h1 ▸ h2))
      · exact Or.inr (Or.inr (h1 ▸ h2))
    | ok d =>
      rw [hm] at h
      exact nomatch h
  | jnull => exact nomatch h
  | jbool b => exact nomatch h
  | jint n => exact nomatch h
  | jobj fs => exact nomatch h

/-- The only exception `_parse_time` lets escape is the `OverflowError` of a
    `datetime` argument beyond the C-int range: the `try` body otherwise
    fails only with `ValueError` or `TypeError`, which the handler catches. -/
theorem parse_time_raw_err (v : JValue) (e : PyErr)
    (h : parse_time_raw v = .error e) : e = .overflowError := by
  unfold parse_time_raw at h
  split at h
  · exact nomatch h
  · cases hp : parse_time_inner v with
    | ok o =>
      rw [hp] at h
      exact nomatch h
    | error e1 =>
      rw [hp] at h
      rcases parse_time_inner_err v e1 hp with rfl | rfl | rfl
      · exact nomatch h
      · exact nomatch h
      · injection h with h1
        exact h1.symm

/-- C8 is false on the code twice over: a present-but-null
    `agentExecutionSequence` makes `parse_execution_data` raise `TypeError`
    (`enumerate(None)`), and a numeric-list timestamp with an entry beyond
    the C-int range makes `_parse_time` raise an uncaught `OverflowError`. -/
theorem c8_counterexample :
    parse_raw (.jobj [("agentExecutionSequence", .jnull)]) = .error .typeError ∧
    parse_time_raw (.jlist [.jint (2 ^ 70), .jint 1, .jint 1]) =
      .error .overflowError :=
  ⟨rfl, rfl⟩

/-- C8 (amended): the only exception `_parse_time` lets escape is the
    `OverflowError` raised by `datetime` for an integer argument beyond the
    C-int range — for every other failing input the handler catches the
    `ValueError` or `TypeError` and the absence indicator is returned — and
    `parse_execution_data` returns an event list without raising on every
    snapshot whose fields are of the expected types or absent, with in-range
    instants (agreeing with the typed normalization there); a
    present-but-null sequence field, however, raises. -/
theorem c8_parse_behaviour :
    (∀ (v : JValue) (e : PyErr), parse_time_raw v = .error e →
      e = .overflowError) ∧
    (∀ ed : ExecutionSnapshot, ed.validTimes →
      parse_raw (encodeSnapshot ed) = .ok (parse_execution_data ed)) :=
  ⟨parse_time_raw_err, parse_raw_encode⟩

/-- Concrete snapshot for the C8 witness. -/
def edC8 : ExecutionSnapshot :=
  ⟨false, [⟨"Step 1: go", some ⟨2026, 1, 21, 12, 0, 0⟩, some ⟨2026, 1, 21, 12, 0, 5⟩,
    "FINISHED", [⟨"think", "", [⟨"error-tool", "failed", "boom"⟩]⟩]⟩]⟩

/-- Witness for the amended C8, reaching both the overflow classification and
    the well-typed normalization at concrete inputs. -/
theorem c8_witness :
    PyErr.overflowError = PyErr.overflowError ∧
    parse_raw (encodeSnapshot edC8) = .ok (parse_execution_data edC8) :=
  ⟨c8_parse_behaviour.1 (.jlist [.jint (2 ^ 70), .jint 1, .jint 1]) .overflowError (by rfl),
   c8_parse_behaviour.2 edC8 (by decide)⟩
